import Mathlib

/-!
# Auction canister (`src/index.ts`) — shallow embedding and verification

This file embeds the auction-record store of the Azle/ICP canister in
`src/index.ts` and proves or refutes the specification's claims about it.

Modelling conventions:
* `nat64` timestamps are modelled as `Nat` (the canister uses JS `BigInt`
  arithmetic, which does not wrap; candid serialization would trap rather
  than wrap on overflow, and no claim concerns overflow).
* `StableBTreeMap<string, Auction>` is modelled as a function
  `String → Option Auction`, with `get` / `insert` (insert-or-replace) /
  `remove` (returning the old value) exactly as the ordered-map service
  provides them.  No claim needs `values()` enumeration order.
* The host environment supplies the caller identity (`ic.caller()`) and the
  clock (`ic.time()`); both are packaged in `Env`.  Within a single message
  execution `ic.time()` is constant, so the two `ic.time()` calls inside
  `createAuction` are one `env.time`.  None of the functions in
  `src/index.ts` ever invokes `ic.caller()`, so `env.caller` is unused by
  the operation bodies — that is a property of the source, not a
  simplification.
* `uuidv4()` is a host randomness source; each call is modelled as an
  explicit argument (`genId`, `genOwnerId`) in the order the source calls it.
* `Result<Auction, string>` is `Except String Auction`; each `$update`
  method returns the result paired with the post-call store.
* JS string truthiness (`!payload.assetType`) is emptiness of the string.
-/

/-- The `Auction` record type of `src/index.ts`. -/
structure Auction where
  id : String
  assetType : String
  assetDescription : String
  ownerName : String
  ownerId : String
  startDate : Nat
  endDate : Nat
  status : String
deriving Repr, DecidableEq

/-- The `AuctionPayload` input record of `src/index.ts`. -/
structure AuctionPayload where
  assetType : String
  assetDescription : String
  ownerName : String
  status : String
deriving Repr, DecidableEq

/-- `const fixedEndDate = 86400000;` (`src/index.ts`). -/
def fixedEndDate : Nat := 86400000

/-- The auction store (`StableBTreeMap<string, Auction>`), as a map. -/
def Store : Type := String → Option Auction

/-- Point lookup: `auctionStorage.get(k)`. -/
def Store.get (s : Store) (k : String) : Option Auction := s k

/-- Insert-or-replace: `auctionStorage.insert(k, v)`. -/
def Store.insert (s : Store) (k : String) (v : Auction) : Store :=
  fun q => if q = k then some v else s q

/-- Removal: `auctionStorage.remove(k)` returns the previous binding (or
none) and deletes the key. -/
def Store.remove (s : Store) (k : String) : Option Auction × Store :=
  (s k, fun q => if q = k then none else s q)

/-- The empty store. -/
def Store.empty : Store := fun _ => none

/-- Ambient host context of one message execution: the caller's stable
identifier (`ic.caller()`) and the clock reading (`ic.time()`). -/
structure Env where
  caller : String
  time : Nat
deriving Repr, DecidableEq

/-- `createAuction(payload)` from `src/index.ts`.  `genId` and
`genOwnerId` are the two `uuidv4()` results, in call order: the source
builds `{ id: uuidv4(), startDate: ic.time(), ownerId: uuidv4(),
endDate: ic.time() + BigInt(fixedEndDate), ...payload }`, so the payload
spread supplies `assetType`, `assetDescription`, `ownerName` and `status`,
while `ownerId` is the second fresh uuid, not the caller. -/
def createAuction (env : Env) (genId genOwnerId : String)
    (payload : AuctionPayload) (store : Store) :
    Except String Auction × Store :=
  if payload.assetType = "" ∨ payload.assetDescription = "" ∨
      payload.ownerName = "" ∨ payload.status = "" then
    (.error "Incomplete input data!", store)
  else
    let auction : Auction :=
      { id := genId
        assetType := payload.assetType
        assetDescription := payload.assetDescription
        ownerName := payload.ownerName
        ownerId := genOwnerId
        startDate := env.time
        endDate := env.time + fixedEndDate
        status := payload.status }
    (.ok auction, store.insert auction.id auction)

/-- `updateAuction(auctionId, ownerId, payload)` from `src/index.ts`.
Ownership is string equality against the explicit `ownerId` argument; the
update is the JS spread `{ ...auction, ...payload }`, which overwrites all
four payload fields (including `status`) unconditionally.  There is no
time-window check and no payload validation.  `env` is unused: the body
consults neither `ic.caller()` nor `ic.time()`. -/
def updateAuction (env : Env) (auctionId ownerId : String)
    (payload : AuctionPayload) (store : Store) :
    Except String Auction × Store :=
  match store.get auctionId with
  | some auction =>
    if auction.ownerId ≠ ownerId then
      (.error "Only the owner can update this auction!", store)
    else
      let updatedAuction : Auction :=
        { auction with
          assetType := payload.assetType
          assetDescription := payload.assetDescription
          ownerName := payload.ownerName
          status := payload.status }
      (.ok updatedAuction, store.insert auction.id updatedAuction)
  | none =>
    (.error ("Failed to update auction with id: " ++ auctionId ++ "!"), store)

/-- `endAuction(auctionId, ownerId)` from `src/index.ts`.  After the
ownership check it fails with "Auction already ended!" when
`auction.endDate >= ic.time()`; otherwise it re-inserts the record with
`endDate := ic.time()` and `status := 'inactive'`.  The stored `status` is
never consulted. -/
def endAuction (env : Env) (auctionId ownerId : String) (store : Store) :
    Except String Auction × Store :=
  match store.get auctionId with
  | some auction =>
    if auction.ownerId ≠ ownerId then
      (.error "Only the owner can end this auction!", store)
    else if auction.endDate ≥ env.time then
      (.error "Auction already ended!", store)
    else
      let endedAuction : Auction :=
        { auction with endDate := env.time, status := "inactive" }
      (.ok endedAuction, store.insert auction.id endedAuction)
  | none =>
    (.error ("Failed to end auction with id: " ++ auctionId ++ "!"), store)

/-- `deleteAuction(auctionId, ownerId)` from `src/index.ts`.  The source
calls `auctionStorage.remove(auctionId)` first and only then checks
ownership of the removed record, so a non-owner's attempt still deletes. -/
def deleteAuction (env : Env) (auctionId ownerId : String) (store : Store) :
    Except String Auction × Store :=
  match store.remove auctionId with
  | (some auction, store2) =>
    if auction.ownerId ≠ ownerId then
      (.error "Only owner can delete auction!", store2)
    else
      (.ok auction, store2)
  | (none, store2) =>
    (.error ("Failed to delete auction with id: " ++ auctionId), store2)

/-- `getAuctionById(auctionId)` from `src/index.ts`. -/
def getAuctionById (auctionId : String) (store : Store) :
    Except String Auction :=
  match store.get auctionId with
  | some auction => .ok auction
  | none =>
    .error ("Auction with the provided id: " ++ auctionId ++
      " has not been found!")

/-- `isAuctionStatusValid(status)` from `src/index.ts`. -/
def isAuctionStatusValid (status : String) : Bool :=
  status = "active" || status = "inactive"

/-! ## Concrete fixtures shared by counterexamples and witnesses -/

/-- A fully non-empty creation payload with status `active`. -/
def samplePayload : AuctionPayload :=
  { assetType := "art", assetDescription := "painting"
    ownerName := "alice", status := "active" }

/-- A payload whose fields are all empty strings. -/
def blankPayload : AuctionPayload :=
  { assetType := "", assetDescription := "", ownerName := "", status := "" }

/-- A payload carrying the status string "pending" (not a valid enum value). -/
def pendingPayload : AuctionPayload :=
  { samplePayload with status := "pending" }

/-- An active auction stored under key "a1", owned by "own1". -/
def auctionA : Auction :=
  { id := "a1", assetType := "art", assetDescription := "painting"
    ownerName := "alice", ownerId := "own1"
    startDate := 100, endDate := 200, status := "active" }

/-- An inactive auction stored under key "a2", owned by "own1". -/
def auctionB : Auction :=
  { auctionA with id := "a2", status := "inactive" }

/-- A store holding only `auctionA`. -/
def storeA : Store := Store.empty.insert "a1" auctionA

/-- A store holding only the inactive `auctionB`. -/
def storeB : Store := Store.empty.insert "a2" auctionB

/-- The record produced by `createAuction ⟨"alice", 1000⟩ "id-1" "tok-1"
samplePayload`. -/
def createdA : Auction :=
  { id := "id-1", assetType := "art", assetDescription := "painting"
    ownerName := "alice", ownerId := "tok-1"
    startDate := 1000, endDate := 1000 + fixedEndDate, status := "active" }

/-! ## C1 — `ownerId` at creation -/

/-- C1 is false on the code: `createAuction` invoked by caller "alice"
returns Ok, yet the record's `ownerId` is the second generated uuid
("tok-1"), not the caller identifier "alice". -/
theorem createAuction_ownerId_not_caller_cex :
    (createAuction ⟨"alice", 1000⟩ "id-1" "tok-1" samplePayload
        Store.empty).1 = .ok createdA ∧
    createdA.ownerId = "tok-1" ∧ "tok-1" ≠ "alice" := by
  refine ⟨rfl, rfl, by decide⟩

/-- C1 (amended): for every call to `createAuction` that returns Ok, the
`ownerId` of the returned and stored record equals the second freshly
generated identifier (the second `uuidv4()` result), independent of the
caller. -/
theorem createAuction_ownerId_is_generated (env : Env)
    (genId genOwnerId : String) (payload : AuctionPayload) (store : Store)
    (a : Auction) (store' : Store)
    (h : createAuction env genId genOwnerId payload store = (.ok a, store')) :
    a.ownerId = genOwnerId ∧ store'.get a.id = some a := by
  unfold createAuction at h
  split at h
  · exact Except.noConfusion (congrArg Prod.fst h)
  · simp only [Prod.mk.injEq, Except.ok.injEq] at h
    obtain ⟨h1, h2⟩ := h
    subst h1 h2
    exact ⟨rfl, by simp [Store.get, Store.insert]⟩

/-- Witness for `createAuction_ownerId_is_generated` at a concrete input. -/
theorem createAuction_ownerId_is_generated_witness :
    createdA.ownerId = "tok-1" ∧
    (Store.empty.insert "id-1" createdA).get createdA.id = some createdA :=
  createAuction_ownerId_is_generated ⟨"alice", 1000⟩ "id-1" "tok-1"
    samplePayload Store.empty createdA _ rfl

/-! ## Successful updates, characterised once -/

/-- Any `updateAuction` call that returns Ok on a record `a0` produces
exactly the JS spread `{ ...a0, ...payload }` and re-inserts it under
`a0.id`. -/
theorem updateAuction_ok_spec (env : Env) (auctionId ownerId : String)
    (payload : AuctionPayload) (store : Store) (a0 a : Auction)
    (store' : Store) (h0 : store.get auctionId = some a0)
    (h : updateAuction env auctionId ownerId payload store = (.ok a, store')) :
    a = { a0 with
          assetType := payload.assetType,
          assetDescription := payload.assetDescription,
          ownerName := payload.ownerName,
          status := payload.status } ∧
    store' = store.insert a0.id a := by
  unfold updateAuction at h
  rw [h0] at h
  split at h
  · rename_i auction heq
    injection heq with heq
    subst heq
    split at h
    · exact Except.noConfusion (congrArg Prod.fst h)
    · simp only [Prod.mk.injEq, Except.ok.injEq] at h
      obtain ⟨h1, h2⟩ := h
      subst h1
      subst h2
      exact ⟨rfl, rfl⟩
  · rename_i heq
    exact Option.noConfusion heq

/-! ## C2 — what `updateAuction` preserves -/

/-- The record obtained by updating the inactive `auctionB` with
`samplePayload` (whose status is "active"). -/
def updatedB : Auction :=
  { auctionB with
    assetType := "art",
    assetDescription := "painting",
    ownerName := "alice",
    status := "active" }

/-- C2 is false on the code: a successful `updateAuction` on the stored
inactive record `auctionB` changes its `status` to the payload's "active"
(the JS payload spread includes `status`). -/
theorem updateAuction_changes_status_cex :
    storeB.get "a2" = some auctionB ∧ auctionB.status = "inactive" ∧
    (updateAuction ⟨"bob", 1000⟩ "a2" "own1" samplePayload storeB).1 =
      .ok updatedB ∧
    ((updateAuction ⟨"bob", 1000⟩ "a2" "own1" samplePayload
        storeB).2.get "a2").map Auction.status = some "active" := by
  exact ⟨rfl, rfl, rfl, rfl⟩

/-- C2 (amended): a successful `updateAuction` preserves `id`, `ownerId`,
`startDate` and `endDate` of the stored record, but sets `status` (like
the three asset/owner text fields) to the payload's value; the result is
re-inserted under the old id. -/
theorem updateAuction_frame (env : Env) (auctionId ownerId : String)
    (payload : AuctionPayload) (store : Store) (a0 a : Auction)
    (store' : Store) (h0 : store.get auctionId = some a0)
    (h : updateAuction env auctionId ownerId payload store = (.ok a, store')) :
    a.id = a0.id ∧ a.ownerId = a0.ownerId ∧ a.startDate = a0.startDate ∧
    a.endDate = a0.endDate ∧ a.status = payload.status ∧
    store'.get a0.id = some a := by
  obtain ⟨ha, hs⟩ :=
    updateAuction_ok_spec env auctionId ownerId payload store a0 a store' h0 h
  subst ha
  subst hs
  exact ⟨rfl, rfl, rfl, rfl, rfl, by simp [Store.get, Store.insert]⟩

/-- Witness for `updateAuction_frame` at a concrete input. -/
theorem updateAuction_frame_witness :
    updatedB.id = auctionB.id ∧ updatedB.ownerId = auctionB.ownerId ∧
    updatedB.startDate = auctionB.startDate ∧
    updatedB.endDate = auctionB.endDate ∧
    updatedB.status = samplePayload.status ∧
    (storeB.insert auctionB.id updatedB).get auctionB.id = some updatedB :=
  updateAuction_frame ⟨"bob", 1000⟩ "a2" "own1" samplePayload storeB
    auctionB updatedB (storeB.insert auctionB.id updatedB) rfl rfl

/-! ## C9 — update is overwrite, not field-wise merge -/

/-- The record obtained by updating `auctionA` with the all-empty payload. -/
def blankedA : Auction :=
  { auctionA with
    assetType := "",
    assetDescription := "",
    ownerName := "",
    status := "" }

/-- C9 is false on the code: updating `auctionA` (assetType "art") with a
payload whose fields are all empty succeeds and stores empty strings —
an empty payload field does not mean "leave unchanged". -/
theorem updateAuction_no_merge_cex :
    storeA.get "a1" = some auctionA ∧ auctionA.assetType = "art" ∧
    blankPayload.assetType = "" ∧
    (updateAuction ⟨"bob", 1000⟩ "a1" "own1" blankPayload storeA).1 =
      .ok blankedA ∧ blankedA.assetType = "" := by
  exact ⟨rfl, rfl, rfl, rfl, rfl⟩

/-- C9 (amended): every successful `updateAuction` sets `assetType`,
`assetDescription` and `ownerName` unconditionally to the payload's
values, whether or not they are empty; no merge with the old record
takes place. -/
theorem updateAuction_overwrites_fields (env : Env)
    (auctionId ownerId : String) (payload : AuctionPayload) (store : Store)
    (a0 a : Auction) (store' : Store) (h0 : store.get auctionId = some a0)
    (h : updateAuction env auctionId ownerId payload store = (.ok a, store')) :
    a.assetType = payload.assetType ∧
    a.assetDescription = payload.assetDescription ∧
    a.ownerName = payload.ownerName := by
  obtain ⟨ha, hs⟩ :=
    updateAuction_ok_spec env auctionId ownerId payload store a0 a store' h0 h
  subst ha
  exact ⟨rfl, rfl, rfl⟩

/-- Witness for `updateAuction_overwrites_fields` at a concrete input. -/
theorem updateAuction_overwrites_fields_witness :
    blankedA.assetType = blankPayload.assetType ∧
    blankedA.assetDescription = blankPayload.assetDescription ∧
    blankedA.ownerName = blankPayload.ownerName :=
  updateAuction_overwrites_fields ⟨"bob", 1000⟩ "a1" "own1" blankPayload
    storeA auctionA blankedA (storeA.insert auctionA.id blankedA) rfl rfl

/-! ## C4 — `updateAuction` has no time-window check -/

/-- C4 is false on the code: the owner updates `auctionA` at time 1000,
well past its `endDate` 200, and the call still returns Ok — there is no
"cannot modify an ended auction" check in `updateAuction`. -/
theorem updateAuction_no_window_check_cex :
    storeA.get "a1" = some auctionA ∧ auctionA.ownerId = "own1" ∧
    auctionA.endDate ≤ 1000 ∧
    (updateAuction ⟨"bob", 1000⟩ "a1" "own1" samplePayload storeA).1 =
      .ok auctionA := by
  exact ⟨rfl, rfl, by decide, rfl⟩

/-- C4 (amended): `updateAuction` never consults the clock: called by the
owner of an existing record it succeeds at every call time, in
particular when current time ≥ `endDate`. -/
theorem updateAuction_ignores_time (env : Env) (auctionId ownerId : String)
    (payload : AuctionPayload) (store : Store) (a0 : Auction)
    (h0 : store.get auctionId = some a0) (hown : a0.ownerId = ownerId) :
    (updateAuction env auctionId ownerId payload store).1 =
      .ok { a0 with
            assetType := payload.assetType,
            assetDescription := payload.assetDescription,
            ownerName := payload.ownerName,
            status := payload.status } := by
  unfold updateAuction
  split
  · rename_i auction heq
    rw [h0] at heq
    injection heq with heq
    subst heq
    rw [if_neg (by simp [hown])]
  · rename_i heq
    rw [h0] at heq
    exact Option.noConfusion heq

/-- Witness for `updateAuction_ignores_time` at a concrete input whose
call time 1000 is past the stored `endDate` 200. -/
theorem updateAuction_ignores_time_witness :
    (updateAuction ⟨"bob", 1000⟩ "a1" "own1" blankPayload storeA).1 =
      .ok { auctionA with
            assetType := blankPayload.assetType,
            assetDescription := blankPayload.assetDescription,
            ownerName := blankPayload.ownerName,
            status := blankPayload.status } :=
  updateAuction_ignores_time ⟨"bob", 1000⟩ "a1" "own1" blankPayload storeA
    auctionA rfl rfl

/-! ## C5 — `deleteAuction` removes before checking ownership -/

/-- C5 (confirmed): when a non-owner calls `deleteAuction` on an existing
record, the call reports the ownership failure, yet the record is
already gone: the post-call store has nothing at that id and
`getAuctionById` reports not-found. -/
theorem deleteAuction_nonowner_still_removes (env : Env)
    (auctionId ownerId : String) (store : Store) (a0 : Auction)
    (h0 : store.get auctionId = some a0) (hown : a0.ownerId ≠ ownerId) :
    (deleteAuction env auctionId ownerId store).1 =
      .error "Only owner can delete auction!" ∧
    (deleteAuction env auctionId ownerId store).2.get auctionId = none ∧
    getAuctionById auctionId (deleteAuction env auctionId ownerId store).2 =
      .error ("Auction with the provided id: " ++ auctionId ++
        " has not been found!") := by
  have hd : deleteAuction env auctionId ownerId store =
      (.error "Only owner can delete auction!",
        fun q => if q = auctionId then none else store q) := by
    unfold deleteAuction Store.remove
    split
    · rename_i auction store2 heq
      simp only [Prod.mk.injEq] at heq
      obtain ⟨hg, hs⟩ := heq
      have hg' : store.get auctionId = some auction := hg
      rw [h0] at hg'
      injection hg' with hg'
      subst hg'
      subst hs
      rw [if_pos hown]
    · rename_i heq
      simp only [Prod.mk.injEq] at heq
      obtain ⟨hg, hs⟩ := heq
      have hg' : store.get auctionId = none := hg
      rw [h0] at hg'
      exact Option.noConfusion hg'
  rw [hd]
  refine ⟨rfl, ?_, ?_⟩
  · show (if auctionId = auctionId then none else store auctionId) = none
    rw [if_pos rfl]
  · show getAuctionById auctionId
      (fun q => if q = auctionId then none else store q) =
      .error ("Auction with the provided id: " ++ auctionId ++
        " has not been found!")
    unfold getAuctionById
    have hnone : Store.get
        (fun q => if q = auctionId then none else store q) auctionId = none := by
      show (if auctionId = auctionId then none else store auctionId) = none
      rw [if_pos rfl]
    rw [hnone]

/-- Witness for `deleteAuction_nonowner_still_removes`: the non-owner
"mallory" deletes `auctionA` (owned by "own1"). -/
theorem deleteAuction_nonowner_still_removes_witness :
    (deleteAuction ⟨"mallory", 1000⟩ "a1" "mallory" storeA).1 =
      .error "Only owner can delete auction!" ∧
    (deleteAuction ⟨"mallory", 1000⟩ "a1" "mallory" storeA).2.get "a1" =
      none ∧
    getAuctionById "a1" (deleteAuction ⟨"mallory", 1000⟩ "a1" "mallory"
        storeA).2 =
      .error ("Auction with the provided id: " ++ "a1" ++
        " has not been found!") :=
  deleteAuction_nonowner_still_removes ⟨"mallory", 1000⟩ "a1" "mallory"
    storeA auctionA rfl (by decide)

/-! ## `endAuction` behaviour for the owner, characterised once -/

/-- For the owner of an existing record, `endAuction` fails with
"Auction already ended!" exactly when `endDate ≥ ic.time()`, and otherwise
re-inserts the record with `endDate := ic.time()` and status `inactive`.
The stored `status` plays no part. -/
theorem endAuction_owner_cases (env : Env) (auctionId ownerId : String)
    (store : Store) (a0 : Auction) (h0 : store.get auctionId = some a0)
    (hown : a0.ownerId = ownerId) :
    (env.time ≤ a0.endDate →
      endAuction env auctionId ownerId store =
        (.error "Auction already ended!", store)) ∧
    (a0.endDate < env.time →
      endAuction env auctionId ownerId store =
        (.ok { a0 with endDate := env.time, status := "inactive" },
          store.insert a0.id
            { a0 with endDate := env.time, status := "inactive" })) := by
  unfold endAuction
  constructor
  · intro ht
    split
    · rename_i auction heq
      rw [h0] at heq
      injection heq with heq
      subst heq
      rw [if_neg (by simp [hown]), if_pos ht]
    · rename_i heq
      rw [h0] at heq
      exact Option.noConfusion heq
  · intro ht
    split
    · rename_i auction heq
      rw [h0] at heq
      injection heq with heq
      subst heq
      rw [if_neg (by simp [hown]), if_neg (by omega)]
    · rename_i heq
      rw [h0] at heq
      exact Option.noConfusion heq

/-! ## C6 — ending an already-inactive record -/

/-- C6 is false on the code: the owner calls `endAuction` on the inactive
record `auctionB` at time 1000 (past its endDate 200) and the call does
not fail "already ended" — it succeeds and re-ends the record, because
`endAuction` never inspects `status`. -/
theorem endAuction_inactive_succeeds_cex :
    storeB.get "a2" = some auctionB ∧ auctionB.status = "inactive" ∧
    (endAuction ⟨"bob", 1000⟩ "a2" "own1" storeB).1 =
      .ok { auctionB with endDate := 1000, status := "inactive" } := by
  exact ⟨rfl, rfl, rfl⟩

/-- C6 (amended): `endAuction` called by the owner on an existing inactive
record fails with the "Auction already ended!" `StateError` and leaves
the store unchanged only while current time ≤ the record's `endDate`
(the code checks the clock, never `status`); past `endDate` the same
call succeeds and re-ends the record. -/
theorem endAuction_inactive_within_window_fails (env : Env)
    (auctionId ownerId : String) (store : Store) (a0 : Auction)
    (h0 : store.get auctionId = some a0) (hown : a0.ownerId = ownerId)
    (hst : a0.status = "inactive") (ht : env.time ≤ a0.endDate) :
    endAuction env auctionId ownerId store =
      (.error "Auction already ended!", store) :=
  (endAuction_owner_cases env auctionId ownerId store a0 h0 hown).1 ht

/-- Witness for `endAuction_inactive_within_window_fails`: owner "own1"
calls at time 150, before `auctionB.endDate` 200. -/
theorem endAuction_inactive_within_window_fails_witness :
    endAuction ⟨"bob", 150⟩ "a2" "own1" storeB =
      (.error "Auction already ended!", storeB) :=
  endAuction_inactive_within_window_fails ⟨"bob", 150⟩ "a2" "own1" storeB
    auctionB rfl rfl rfl (by decide)

/-! ## C7 — when can the owner end an active record -/

/-- C7 is false on the code at the boundary: at call time exactly equal to
`endDate` the claim predicts success (current time is not strictly less
than `endDate`), but the code's `endDate >= ic.time()` test fails the
call. -/
theorem endAuction_boundary_cex :
    storeA.get "a1" = some auctionA ∧ auctionA.status = "active" ∧
    ¬ (200 < auctionA.endDate) ∧
    (endAuction ⟨"bob", 200⟩ "a1" "own1" storeA).1 =
      .error "Auction already ended!" := by
  exact ⟨rfl, rfl, by decide, rfl⟩

/-- C7 (amended): for the owner of an existing active record,
`endAuction` fails (with the `StateError` message "Auction already
ended!") if and only if current time ≤ the record's `endDate` — i.e. it
succeeds iff current time is strictly greater — and on success it sets
`status` to inactive and `endDate` to the call time. -/
theorem endAuction_succeeds_iff_window_elapsed (env : Env)
    (auctionId ownerId : String) (store : Store) (a0 : Auction)
    (h0 : store.get auctionId = some a0) (hown : a0.ownerId = ownerId)
    (hst : a0.status = "active") :
    ((∃ a, (endAuction env auctionId ownerId store).1 = .ok a) ↔
      a0.endDate < env.time) ∧
    (env.time ≤ a0.endDate →
      endAuction env auctionId ownerId store =
        (.error "Auction already ended!", store)) ∧
    (a0.endDate < env.time →
      endAuction env auctionId ownerId store =
        (.ok { a0 with endDate := env.time, status := "inactive" },
          store.insert a0.id
            { a0 with endDate := env.time, status := "inactive" })) := by
  obtain ⟨herr, hok⟩ :=
    endAuction_owner_cases env auctionId ownerId store a0 h0 hown
  refine ⟨⟨?_, ?_⟩, herr, hok⟩
  · rintro ⟨a, ha⟩
    by_contra hlt
    have ht : env.time ≤ a0.endDate := by omega
    rw [herr ht] at ha
    exact Except.noConfusion ha
  · intro ht
    exact ⟨_, by rw [hok ht]⟩

/-- Witness for `endAuction_succeeds_iff_window_elapsed`: owner "own1"
ends the active `auctionA`; with endDate 200 the call succeeds exactly
for times strictly past 200. -/
theorem endAuction_succeeds_iff_window_elapsed_witness :
    ((∃ a, (endAuction ⟨"bob", 1000⟩ "a1" "own1" storeA).1 = .ok a) ↔
      auctionA.endDate < 1000) ∧
    (1000 ≤ auctionA.endDate →
      endAuction ⟨"bob", 1000⟩ "a1" "own1" storeA =
        (.error "Auction already ended!", storeA)) ∧
    (auctionA.endDate < 1000 →
      endAuction ⟨"bob", 1000⟩ "a1" "own1" storeA =
        (.ok { auctionA with endDate := 1000, status := "inactive" },
          storeA.insert auctionA.id
            { auctionA with endDate := 1000, status := "inactive" })) :=
  endAuction_succeeds_iff_window_elapsed ⟨"bob", 1000⟩ "a1" "own1" storeA
    auctionA rfl rfl rfl

/-! ## C8 — status and endDate at creation -/

/-- C8 is false on the code: `createAuction` accepts any non-empty status
string from the payload spread — here "pending", which is not even a
valid enum value — instead of forcing `active`. -/
theorem createAuction_status_not_forced_cex :
    (createAuction ⟨"alice", 1000⟩ "id-1" "tok-1" pendingPayload
        Store.empty).1 = .ok { createdA with status := "pending" } ∧
    isAuctionStatusValid "pending" = false ∧ "pending" ≠ "active" := by
  exact ⟨rfl, rfl, by decide⟩

/-- C8 (amended): every Ok `createAuction` returns a record with `status`
equal to the payload's status field (whatever non-empty string that is)
and `endDate = startDate + fixedEndDate`, where `fixedEndDate` is the
constant 86400000 — one day in milliseconds, although the clock is in
nanoseconds. -/
theorem createAuction_status_endDate (env : Env) (genId genOwnerId : String)
    (payload : AuctionPayload) (store : Store) (a : Auction) (store' : Store)
    (h : createAuction env genId genOwnerId payload store = (.ok a, store')) :
    a.status = payload.status ∧ a.startDate = env.time ∧
    a.endDate = a.startDate + fixedEndDate ∧ fixedEndDate = 86400000 := by
  unfold createAuction at h
  split at h
  · exact Except.noConfusion (congrArg Prod.fst h)
  · simp only [Prod.mk.injEq, Except.ok.injEq] at h
    obtain ⟨h1, h2⟩ := h
    subst h1
    exact ⟨rfl, rfl, rfl, rfl⟩

/-- Witness for `createAuction_status_endDate` at a concrete input. -/
theorem createAuction_status_endDate_witness :
    createdA.status = samplePayload.status ∧ createdA.startDate = 1000 ∧
    createdA.endDate = createdA.startDate + fixedEndDate ∧
    fixedEndDate = 86400000 :=
  createAuction_status_endDate ⟨"alice", 1000⟩ "id-1" "tok-1" samplePayload
    Store.empty createdA (Store.empty.insert "id-1" createdA) rfl

/-! ## C10 — no ambient caller identity is consulted -/

/-- C10 (confirmed): `updateAuction`, `endAuction` and `deleteAuction`
never read `ic.caller()`: two message environments that agree on the
clock but have arbitrary (e.g. different) callers produce identical
results and identical post-call stores for identical explicit
arguments; ownership is decided solely by the `ownerId` string argument
against the stored `ownerId`. -/
theorem mutations_caller_independent (env1 env2 : Env)
    (h : env1.time = env2.time) (auctionId ownerId : String)
    (payload : AuctionPayload) (store : Store) :
    updateAuction env1 auctionId ownerId payload store =
      updateAuction env2 auctionId ownerId payload store ∧
    endAuction env1 auctionId ownerId store =
      endAuction env2 auctionId ownerId store ∧
    deleteAuction env1 auctionId ownerId store =
      deleteAuction env2 auctionId ownerId store := by
  obtain ⟨c1, t1⟩ := env1
  obtain ⟨c2, t2⟩ := env2
  obtain rfl : t1 = t2 := h
  exact ⟨rfl, rfl, rfl⟩

/-- Witness for `mutations_caller_independent`: callers "alice" and
"mallory" at the same time 500 get identical outcomes on `storeA`. -/
theorem mutations_caller_independent_witness :
    updateAuction ⟨"alice", 500⟩ "a1" "own1" samplePayload storeA =
      updateAuction ⟨"mallory", 500⟩ "a1" "own1" samplePayload storeA ∧
    endAuction ⟨"alice", 500⟩ "a1" "own1" storeA =
      endAuction ⟨"mallory", 500⟩ "a1" "own1" storeA ∧
    deleteAuction ⟨"alice", 500⟩ "a1" "own1" storeA =
      deleteAuction ⟨"mallory", 500⟩ "a1" "own1" storeA :=
  mutations_caller_independent ⟨"alice", 500⟩ ⟨"mallory", 500⟩ rfl "a1"
    "own1" samplePayload storeA

/-! ## C3 — status monotonicity across operations -/

/-- If a key's binding is unchanged, so is the bound record's status. -/
theorem status_of_same_lookup (store : Store) (k : String) (a a' : Auction)
    (ha : store.get k = some a) (hst : a.status = "inactive")
    (ha' : store.get k = some a') : a'.status = "inactive" := by
  rw [ha] at ha'
  injection ha' with ha'
  subst ha'
  exact hst

/-- One mutating call other than `updateAuction`: a `createAuction` whose
generated id is not currently a stored key (the code assumes uuid
freshness and does not re-check), an `endAuction`, or a `deleteAuction`,
each with arbitrary environment and arguments. -/
inductive NonUpdateStep : Store → Store → Prop
  | create (env : Env) (genId genOwnerId : String) (payload : AuctionPayload)
      (store : Store) (hfresh : store.get genId = none) :
      NonUpdateStep store (createAuction env genId genOwnerId payload store).2
  | endA (env : Env) (auctionId ownerId : String) (store : Store) :
      NonUpdateStep store (endAuction env auctionId ownerId store).2
  | delete (env : Env) (auctionId ownerId : String) (store : Store) :
      NonUpdateStep store (deleteAuction env auctionId ownerId store).2

/-- C3 is false on the code: `updateAuction` — one of the four listed
operations — flips the stored inactive record `auctionB` back to
"active", because the payload spread includes `status`. -/
theorem status_monotonicity_cex :
    storeB.get "a2" = some auctionB ∧ auctionB.status = "inactive" ∧
    ((updateAuction ⟨"bob", 1000⟩ "a2" "own1" samplePayload
        storeB).2.get "a2").map Auction.status = some "active" := by
  exact ⟨rfl, rfl, rfl⟩

/-- C3 (amended): excluding `updateAuction`, no operation ever moves a
stored record from inactive to active: after any single `createAuction`
(with an unused fresh id), `endAuction` or `deleteAuction` call, a key
that held an inactive record and still holds a record holds an inactive
one; `updateAuction` breaks monotonicity by overwriting `status` with
the payload's value. -/
theorem nonUpdateStep_no_reactivation (s s' : Store)
    (h : NonUpdateStep s s') (k : String) (a a' : Auction)
    (ha : s.get k = some a) (hst : a.status = "inactive")
    (ha' : s'.get k = some a') : a'.status = "inactive" := by
  cases h with
  | create env genId genOwnerId payload hfresh =>
    rename_i hfresh
    unfold createAuction at ha'
    split at ha'
    · exact status_of_same_lookup s k a a' ha hst ha'
    · have ha2 : (if k = genId then
          some { id := genId, assetType := payload.assetType,
                 assetDescription := payload.assetDescription,
                 ownerName := payload.ownerName, ownerId := genOwnerId,
                 startDate := env.time, endDate := env.time + fixedEndDate,
                 status := payload.status }
          else s k) = some a' := ha'
      split at ha2
      · rename_i hk
        rw [hk] at ha
        rw [hfresh] at ha
        exact Option.noConfusion ha
      · exact status_of_same_lookup s k a a' ha hst ha2
  | endA env auctionId ownerId =>
    unfold endAuction at ha'
    split at ha'
    · rename_i auction heq
      split at ha'
      · exact status_of_same_lookup s k a a' ha hst ha'
      · split at ha'
        · exact status_of_same_lookup s k a a' ha hst ha'
        · have ha2 : (if k = auction.id then
              some { auction with endDate := env.time, status := "inactive" }
              else s k) = some a' := ha'
          split at ha2
          · injection ha2 with ha2
            subst ha2
            rfl
          · exact status_of_same_lookup s k a a' ha hst ha2
    · exact status_of_same_lookup s k a a' ha hst ha'
  | delete env auctionId ownerId =>
    unfold deleteAuction Store.remove at ha'
    split at ha'
    · rename_i auction store2 heq
      simp only [Prod.mk.injEq] at heq
      obtain ⟨hg, hs⟩ := heq
      subst hs
      split at ha'
      · have ha2 : (if k = auctionId then none else s k) = some a' := ha'
        split at ha2
        · exact Option.noConfusion ha2
        · exact status_of_same_lookup s k a a' ha hst ha2
      · have ha2 : (if k = auctionId then none else s k) = some a' := ha'
        split at ha2
        · exact Option.noConfusion ha2
        · exact status_of_same_lookup s k a a' ha hst ha2
    · rename_i store2 heq
      simp only [Prod.mk.injEq] at heq
      obtain ⟨hg, hs⟩ := heq
      subst hs
      have ha2 : (if k = auctionId then none else s k) = some a' := ha'
      split at ha2
      · exact Option.noConfusion ha2
      · exact status_of_same_lookup s k a a' ha hst ha2

/-- Witness for `nonUpdateStep_no_reactivation`: an `endAuction` step on
`storeB` at time 150 (inside the window, so the store is unchanged) keeps
the inactive `auctionB` inactive. -/
theorem nonUpdateStep_no_reactivation_witness :
    auctionB.status = "inactive" :=
  nonUpdateStep_no_reactivation storeB
    (endAuction ⟨"bob", 150⟩ "a2" "own1" storeB).2
    (NonUpdateStep.endA ⟨"bob", 150⟩ "a2" "own1" storeB) "a2" auctionB
    auctionB rfl rfl rfl
